import Mathlib

/-!
Verification development for the Radix Tribes turn-state engine
(`server.js` plus `shared/constants.js`).

Every definition below is a shallow embedding of a concrete function or
handler of `server.js`; line numbers in doc comments refer to that file.
JavaScript numbers are modelled as `Int` or `Nat` (all values involved
are exact integers; `Math.random` draws are modelled in exact
thousandths, which makes every fractional comparison integral);
JavaScript objects used as string-keyed maps are modelled as association
lists with first-match lookup and in-place overwrite, which is exactly the
observable behaviour of property reads and writes on a JS object.
-/

namespace RadixTribes

/-! ## Hex addressing: encoding and parsing of coordinate strings -/

/-- JS `String.prototype.padStart(3, '0')`: pad on the left with the
character `'0'` until the string has at least 3 characters. -/
def padStart3 (s : String) : String :=
  ⟨List.replicate (3 - s.length) '0' ++ s.data⟩

/-- The coordinate-key template used throughout `server.js`
(lines 125, 161, 171): the `q` and `r` parts are rendered with
`toString()` and `padStart(3, '0')` and joined with a dot. -/
def encodeHexCoords (q r : Int) : String :=
  padStart3 (toString q) ++ "." ++ padStart3 (toString r)

/-- Model of JS `Number(s)` restricted to the strings this system feeds it
(dot-free parts of coordinate keys): `some n` when `s` is an optional sign
followed by one or more decimal digits, in which case `Number` returns the
integer `n`; `none` when `Number(s)` is `NaN` (any other character, a bare
sign, or a sign in the middle of the string, as in `"0-5"`). -/
def jsNumber (s : String) : Option Int :=
  match s.data with
  | [] => none
  | '-' :: rest =>
      if rest.isEmpty then none
      else if rest.all Char.isDigit then
        some (-(rest.foldl (fun a c => 10 * a + (c.toNat - 48)) 0 : Nat))
      else none
  | '+' :: rest =>
      if rest.isEmpty then none
      else if rest.all Char.isDigit then
        some ((rest.foldl (fun a c => 10 * a + (c.toNat - 48)) 0 : Nat))
      else none
  | l =>
      if l.all Char.isDigit then
        some ((l.foldl (fun a c => 10 * a + (c.toNat - 48)) 0 : Nat))
      else none

/-- JS `s.split('.')` on the underlying character list: cut at every dot,
keeping empty pieces. The accumulator holds the current piece reversed. -/
def splitDotAux : List Char → List Char → List String
  | [], cur => [⟨cur.reverse⟩]
  | c :: rest, cur =>
      if c = '.' then (⟨cur.reverse⟩ : String) :: splitDotAux rest []
      else splitDotAux rest (c :: cur)

/-- JS `s.split('.')`. -/
def splitDot (s : String) : List String :=
  splitDotAux s.data []

/-- `parseHexCoords` (server.js line 108): `hexString.split('.').map(Number)`
destructured as `[q, r]`.  A part on which `Number` yields `NaN`, or a
missing second part (`undefined`), is modelled as `none`.  The
surrounding try/catch's `(0, 0)` fallback is unreachable for string
input: none of `split`, `map` or array destructuring throws, so it is
not part of the model. -/
def parseHexCoords (s : String) : Option Int × Option Int :=
  let parts := (splitDot s).map jsNumber
  (match parts with
   | [] => none
   | a :: _ => a,
   match parts with
   | _ :: b :: _ => b
   | _ => none)

/-- Axial coordinate pair, the `(q, r)` record of server.js. -/
structure Coord where
  q : Int
  r : Int
  deriving DecidableEq, Repr

/-- `getHexesInRange` (server.js line 119): two nested `for` loops over the
square `center ± range`, keeping the coordinates whose coordinate-wise
absolute deviations sum to at most `range * 2`, each rendered with the
same zero-padded template as `encodeHexCoords`. -/
def getHexesInRange (center : Coord) (range : Nat) : List String :=
  (List.range (2 * range + 1)).flatMap fun (i : Nat) =>
    (List.range (2 * range + 1)).filterMap fun (j : Nat) =>
      let q : Int := center.q - (range : Int) + (i : Int)
      let r : Int := center.r - (range : Int) + (j : Int)
      if (q - center.q).natAbs + (r - center.r).natAbs ≤ 2 * range then
        some (encodeHexCoords q r)
      else none

/-- `getHexesInRange` as called on the result of `parseHexCoords`
(server.js lines 273, 695): when a component of the parsed centre is JS
`NaN`, every loop-bound comparison in `getHexesInRange` is false, both
loops run zero iterations and the result is empty. -/
def getHexesInRangeParsed (c : Option Int × Option Int) (range : Nat) : List String :=
  match c with
  | (some q, some r) => getHexesInRange ⟨q, r⟩ range
  | _ => []

/-! Basic facts about the encoding. -/

theorem padStart3_length (s : String) :
    (padStart3 s).length = (3 - s.length) + s.length := by
  show (List.replicate (3 - s.length) '0' ++ s.data).length = _
  rw [List.length_append, List.length_replicate]
  rfl

theorem encodeHexCoords_length_ge (q r : Int) :
    7 ≤ (encodeHexCoords q r).length := by
  show 7 ≤ (padStart3 (toString q) ++ "." ++ padStart3 (toString r)).length
  rw [String.length_append, String.length_append, padStart3_length, padStart3_length]
  have hdot : ("." : String).length = 1 := rfl
  rw [hdot]
  omega

theorem splitDotAux_no_dot (l acc : List Char) (h : '.' ∉ l) :
    splitDotAux l acc = [⟨acc.reverse ++ l⟩] := by
  induction l generalizing acc with
  | nil => simp [splitDotAux]
  | cons c rest ih =>
    have hc : ¬ c = '.' := fun hc => h (hc ▸ List.mem_cons_self c rest)
    rw [splitDotAux, if_neg hc, ih (c :: acc) (fun hm => h (List.mem_cons_of_mem c hm))]
    simp

theorem splitDotAux_append (a m acc : List Char) (h : '.' ∉ a) :
    splitDotAux (a ++ '.' :: m) acc = (⟨acc.reverse ++ a⟩ : String) :: splitDotAux m [] := by
  induction a generalizing acc with
  | nil => simp [splitDotAux]
  | cons c rest ih =>
    have hc : ¬ c = '.' := fun hc => h (hc ▸ List.mem_cons_self c rest)
    rw [List.cons_append, splitDotAux, if_neg hc,
      ih (c :: acc) (fun hm => h (List.mem_cons_of_mem c hm))]
    simp

/-- C1. The spec claims `parse(encode(q,r)) = (q,r)` for every valid
coordinate, negative components included.  It fails: `padStart(3,'0')` is
not sign-aware, so `encode(-5, 0)` is `"0-5.000"`, whose first part is not
numeric; JS `Number("0-5")` is `NaN` (modelled `none`), not `-5`. -/
theorem c1_roundtrip_fails_on_negative :
    encodeHexCoords (-5) 0 = "0-5.000" ∧
    parseHexCoords (encodeHexCoords (-5) 0) = (none, some 0) ∧
    parseHexCoords (encodeHexCoords (-5) 0) ≠ (some (-5), some 0) := by
  refine ⟨by decide, by decide, by decide⟩

/-- C6 (counterexample). The spec defines `rangeOf(c, radius)` as all
`(q,r)` with `|q-c.q| + |r-c.r| ≤ 2*radius`, but the implementation only
scans the square `c ± radius`: the coordinate `(2,0)` satisfies the metric
for `radius = 1` yet its encoding is absent from the result. -/
theorem c6_claim_false_ball_clipped :
    |(2 : Int) - 0| + |(0 : Int) - 0| ≤ 2 * 1 ∧
    encodeHexCoords 2 0 ∉ getHexesInRange ⟨0, 0⟩ 1 := by
  refine ⟨by decide, by decide⟩

/-- C6 (amended). `getHexesInRange center range` returns exactly the
encodings of the integer pairs of the metric set that also lie in the
scanned square: `|q-c.q| ≤ range`, `|r-c.r| ≤ range` and
`|q-c.q| + |r-c.r| ≤ 2*range`. -/
theorem c6_amended_membership (center : Coord) (range : Nat) (s : String) :
    s ∈ getHexesInRange center range ↔
      ∃ q r : Int, |q - center.q| ≤ (range : Int) ∧ |r - center.r| ≤ (range : Int) ∧
        |q - center.q| + |r - center.r| ≤ 2 * (range : Int) ∧ s = encodeHexCoords q r := by
  unfold getHexesInRange
  simp only [List.mem_flatMap, List.mem_filterMap, List.mem_range]
  constructor
  · rintro ⟨i, hi, j, hj, h⟩
    have eq : center.q - (range : Int) + (i : Int) - center.q = (i : Int) - range := by ring
    have er : center.r - (range : Int) + (j : Int) - center.r = (j : Int) - range := by ring
    split at h
    · next hcond =>
      rw [eq, er] at hcond
      refine ⟨center.q - range + i, center.r - range + j, ?_, ?_, ?_, ?_⟩
      · rw [eq, abs_le]; exact ⟨by omega, by omega⟩
      · rw [er, abs_le]; exact ⟨by omega, by omega⟩
      · rw [eq, er, Int.abs_eq_natAbs, Int.abs_eq_natAbs]; exact_mod_cast hcond
      · exact (Option.some.injEq _ _ ▸ h).symm
    · exact absurd h (Option.noConfusion)
  · rintro ⟨q, r, h1, h2, h3, rfl⟩
    rw [abs_le] at h1 h2
    rw [Int.abs_eq_natAbs, Int.abs_eq_natAbs] at h3
    refine ⟨(q - center.q + range).toNat, by omega, (r - center.r + range).toNat, by omega, ?_⟩
    have hq : center.q - range + ((q - center.q + range).toNat : Int) = q := by omega
    have hr : center.r - range + ((r - center.r + range).toNat : Int) = r := by omega
    rw [hq, hr, if_pos (by omega)]

/-- C7 (counterexample). The spec requires parse to fail with
`MalformedCoordinate` on any input that is not a well-formed fixed-width
encoding.  `"1.2.3"` is not the encoding of any coordinate (every encoding
has at least 7 characters), yet `parseHexCoords` silently returns the
coordinate `(1, 2)` — no error value exists anywhere in the code. -/
theorem c7_claim_false_silent_parse :
    (¬ ∃ q r : Int, encodeHexCoords q r = "1.2.3") ∧
    parseHexCoords "1.2.3" = (some 1, some 2) := by
  constructor
  · rintro ⟨q, r, h⟩
    have h7 : 7 ≤ (encodeHexCoords q r).length := encodeHexCoords_length_ge q r
    rw [h] at h7
    exact absurd h7 (by decide)
  · decide

/-- C7 (amended). `parseHexCoords` never surfaces an error: it is total,
and on any input built from two dot-free parts it silently returns the
componentwise JS `Number` results — a part that is not numeric becomes
`NaN` (modelled `none`) and flows on into core logic. -/
theorem c7_amended_parse_total (a b : String) (ha : '.' ∉ a.data) (hb : '.' ∉ b.data) :
    parseHexCoords (a ++ "." ++ b) = (jsNumber a, jsNumber b) := by
  have hdata : (a ++ "." ++ b).data = a.data ++ '.' :: b.data := by
    rw [String.data_append, String.data_append, List.append_assoc]
    rfl
  unfold parseHexCoords splitDot
  rw [hdata, splitDotAux_append _ _ _ ha, splitDotAux_no_dot _ _ hb]
  simp

theorem c7_amended_parse_total_witness :
    parseHexCoords ("12" ++ "." ++ "0-5") = (jsNumber "12", jsNumber "0-5") :=
  c7_amended_parse_total "12" "0-5" (by decide) (by decide)

/-! ## Data model (server.js game state, shared/constants.js constants) -/

/-- `TERRAIN_TYPES` (shared/constants.js), a closed enum. -/
inductive Terrain
  | Plains | Desert | Mountains | Forest | Ruins | Wasteland | Water | Radiation | Crater | Swamp
  deriving DecidableEq, Repr

/-- `Object.values(TERRAIN_TYPES)` in insertion order (server.js line 150). -/
def terrainTypesList : List Terrain :=
  [.Plains, .Desert, .Mountains, .Forest, .Ruins, .Wasteland, .Water, .Radiation, .Crater, .Swamp]

/-- `DIPLOMATIC_STATUS` (shared/constants.js). -/
inductive DipStatus
  | War | Neutral | Alliance
  deriving DecidableEq, Repr

/-- A diplomacy record value: the object assigned by the handlers. -/
structure DiploEntry where
  status : DipStatus
  deriving DecidableEq, Repr

/-- Tribe stat block. -/
structure Stats where
  charisma : Int
  intelligence : Int
  leadership : Int
  strength : Int
  deriving DecidableEq, Repr

/-- `INITIAL_GLOBAL_RESOURCES` shape (shared/constants.js). -/
structure Resources where
  food : Int
  scrap : Int
  morale : Int
  deriving DecidableEq, Repr

/-- `INITIAL_GLOBAL_RESOURCES` value. -/
def initialGlobalResources : Resources := ⟨100, 20, 50⟩

/-- Entry of `ALL_CHIEFS` (server.js line 323). -/
structure Chief where
  name : String
  description : String
  stats : Stats
  deriving DecidableEq, Repr

/-- `ALL_CHIEFS` (server.js line 323); `key_image_url` is always empty and omitted. -/
def allChiefs : List Chief :=
  [⟨"Warlord Kain", "A fierce leader known for tactical brilliance", ⟨3, 5, 7, 6⟩⟩,
   ⟨"Scout Lyra", "Master of stealth and reconnaissance", ⟨4, 6, 3, 4⟩⟩]

/-- Garrison record (`INITIAL_GARRISON` shape). -/
structure Garrison where
  troops : Int
  weapons : Int
  chiefs : List Chief
  deriving DecidableEq, Repr

/-- `INITIAL_GARRISON` value (shared/constants.js). -/
def initialGarrison : Garrison := ⟨20, 10, []⟩

/-- A planned action.  The engine never inspects action contents — it only
copies, clears and archives action lists — so the payload is opaque. -/
structure GameAction where
  payload : String
  deriving DecidableEq, Repr

/-- A journey response, likewise opaque to the engine. -/
structure JourneyResponse where
  payload : String
  deriving DecidableEq, Repr

/-- Tribe record, the fields `server.js` reads or writes. -/
structure Tribe where
  id : String
  playerId : String
  isAI : Bool
  aiType : Option String
  playerName : String
  tribeName : String
  icon : String
  color : String
  stats : Stats
  location : String
  globalResources : Resources
  garrisons : List (String × Garrison)
  actions : List GameAction
  turnSubmitted : Bool
  lastTurnResults : List GameAction
  exploredHexes : List String
  rationLevel : String
  completedTechs : List String
  assets : List String
  currentResearch : Option String
  journeyResponses : List JourneyResponse
  diplomacy : List (String × DiploEntry)
  deriving DecidableEq, Repr

/-- Diplomatic proposal record (`propose_alliance` / `sue_for_peace`). -/
structure DiplomaticProposal where
  id : String
  fromTribeId : String
  toTribeId : String
  statusChangeTo : DipStatus
  expiresOnTurn : Int
  fromTribeName : String
  reparations : Option String
  deriving DecidableEq, Repr

/-- Chief request record (`request_chief`). -/
structure ChiefRequest where
  id : String
  tribeId : String
  chiefName : String
  status : String
  deriving DecidableEq, Repr

/-- Asset request record (`request_asset`). -/
structure AssetRequest where
  id : String
  tribeId : String
  assetName : String
  status : String
  deriving DecidableEq, Repr

/-- Hex of the stored map (`generateMapData` pushes records with fields
`q`, `r`, `terrain`). -/
structure Hex where
  q : Int
  r : Int
  terrain : Terrain
  deriving DecidableEq, Repr

/-- Map-generation bias weights (`DEFAULT_MAP_SETTINGS.biases`), as an
association list because JS stores them in an object. -/
structure MapSettings where
  biases : List (Terrain × Rat)
  deriving DecidableEq, Repr

/-- `DEFAULT_MAP_SETTINGS` (shared/constants.js). -/
def defaultMapSettings : MapSettings :=
  ⟨[(.Plains, 1), (.Desert, 1), (.Mountains, 1), (.Forest, 1), (.Ruins, 4/5),
    (.Wasteland, 1), (.Water, 1), (.Radiation, 1/2), (.Crater, 7/10), (.Swamp, 9/10)]⟩

/-- The `gameState` object (see `getDefaultGameState`, server.js line 361).
`journeys` and `history` entries are never created or read by this code,
so they are opaque strings. -/
structure GameState where
  mapData : List Hex
  tribes : List Tribe
  turn : Int
  startingLocations : List String
  chiefRequests : List ChiefRequest
  assetRequests : List AssetRequest
  journeys : List String
  diplomaticProposals : List DiplomaticProposal
  history : List String
  mapSeed : Int
  mapSettings : MapSettings
  deriving DecidableEq, Repr

/-! ## JS object as association list -/

/-- JS property read `obj[k]` on a string-keyed object modelled as an
association list: first matching key wins (keys are unique in objects
built by this code, but the model does not rely on it). -/
def getEntry {β : Type} : List (String × β) → String → Option β
  | [], _ => none
  | (k', v) :: rest, k => if k' = k then some v else getEntry rest k

/-- JS property write `obj[k] = v`: overwrite the existing key in place,
otherwise append the new key at the end (JS insertion order). -/
def setEntry {β : Type} : List (String × β) → String → β → List (String × β)
  | [], k, v => [(k, v)]
  | (k', v') :: rest, k, v =>
      if k' = k then (k', v) :: rest else (k', v') :: setEntry rest k v

theorem getEntry_setEntry_self {β : Type} (d : List (String × β)) (k : String) (v : β) :
    getEntry (setEntry d k v) k = some v := by
  induction d with
  | nil => simp [setEntry, getEntry]
  | cons p rest ih =>
    obtain ⟨k', v'⟩ := p
    by_cases h : k' = k
    · simp [setEntry, getEntry, h]
    · simp [setEntry, getEntry, h, ih]

theorem getEntry_setEntry_ne {β : Type} (d : List (String × β)) (k k₀ : String) (v : β)
    (h : k₀ ≠ k) : getEntry (setEntry d k v) k₀ = getEntry d k₀ := by
  have h' : ¬ k = k₀ := fun hh => h hh.symm
  induction d with
  | nil => simp [setEntry, getEntry, h']
  | cons p rest ih =>
    obtain ⟨k', v'⟩ := p
    by_cases hk : k' = k
    · subst hk
      simp [setEntry, getEntry, h']
    · by_cases hk0 : k' = k₀
      · subst hk0
        simp [setEntry, getEntry, hk]
      · simp [setEntry, getEntry, hk, hk0, ih]

/-! ## Turn engine -/

/-- Per-tribe part of the `newState.tribes.map` in `processGlobalTurn`
(server.js line 201): unlock, archive the action list (always an array in
a well-formed state, so the `|| []` alternative never fires), clear it. -/
def advanceTribe (t : Tribe) : Tribe :=
  { t with turnSubmitted := false, lastTurnResults := t.actions, actions := [] }

/-- Per-tribe part of the resource `forEach` in `processGlobalTurn`
(server.js line 209): `globalResources` is always present in a well-formed
state, so the guard is taken. -/
def accrueResources (t : Tribe) : Tribe :=
  { t with globalResources :=
      { t.globalResources with
          food := t.globalResources.food + 5
          scrap := t.globalResources.scrap + 2 } }

/-- `processGlobalTurn` (server.js line 190), success path: bump the turn,
reset every tribe and accrue resources, drop proposals whose
`expiresOnTurn` is below the new turn.  (`diplomaticProposals` is always
an array in a well-formed state, so the truthiness guard is taken.) -/
def processGlobalTurn (s : GameState) : GameState :=
  { s with
      turn := s.turn + 1
      tribes := (s.tribes.map advanceTribe).map accrueResources
      diplomaticProposals :=
        s.diplomaticProposals.filter fun p => decide (s.turn + 1 ≤ p.expiresOnTurn) }

/-- `generateAIActions` (server.js line 312): always the empty list. -/
def generateAIActions (_tribe : Tribe) (_allTribes : List Tribe) (_mapData : List Hex) :
    List GameAction := []

/-- AI back-fill step of the `process_turn` handler (server.js line 754). -/
def aiBackfill (allTribes : List Tribe) (mapData : List Hex) (t : Tribe) : Tribe :=
  if t.isAI && !t.turnSubmitted then
    { t with actions := generateAIActions t allTribes mapData, turnSubmitted := true }
  else t

/-- The `process_turn` boundary command (server.js line 751): AI back-fill
over the current tribes, then `processGlobalTurn`. -/
def processTurnCommand (s : GameState) : GameState :=
  processGlobalTurn { s with tribes := s.tribes.map (aiBackfill s.tribes s.mapData) }

/-- Exception path of `processGlobalTurn`, traced from the source.  The
body builds `newState` as a shallow copy of `state`: the turn write and
the `tribes` rebind touch only the copy, but each mapped tribe object
shares its `globalResources` object with the original tribe, so the
resource `forEach` mutates the original state through the alias.  If an
exception strikes after `k` completed steps (step 1 = turn bump plus
tribe map, step 2 = resource loop, step 3 = proposal filter, i.e. a full
run), the `catch` returns the original `state` binding, which for `k = 2`
already carries the accrued resources.  A reachable trigger: `load_backup`
can install a non-array truthy `diplomaticProposals`, making the `filter`
call throw after the resource loop. -/
def processGlobalTurnInterrupted (k : Nat) (s : GameState) : GameState :=
  match k with
  | 0 => s
  | 1 => s
  | 2 => { s with tribes := s.tribes.map accrueResources }
  | _ + 3 => processGlobalTurn s

/-- C3. After one `process_turn`, the turn counter is the old counter plus
one and every tribe is unlocked. -/
theorem c3_turn_increment_and_unlock (s : GameState) :
    (processTurnCommand s).turn = s.turn + 1 ∧
    ((processTurnCommand s).tribes.all fun t => t.turnSubmitted == false) = true := by
  constructor
  · rfl
  · simp only [processTurnCommand, processGlobalTurn, List.all_eq_true, List.mem_map]
    rintro t ⟨u, ⟨v, hv, rfl⟩, rfl⟩
    rfl

/-- C5. After one `process_turn`, no proposal whose expiry turn is
strictly below the new current turn remains. -/
theorem c5_expired_proposals_purged (s : GameState) :
    ((processTurnCommand s).diplomaticProposals.all fun p =>
        !decide (p.expiresOnTurn < (processTurnCommand s).turn)) = true := by
  simp only [processTurnCommand, processGlobalTurn, List.all_eq_true, List.mem_filter]
  rintro p ⟨hp, hkeep⟩
  simp only [decide_eq_true_eq] at hkeep
  simp only [Bool.not_eq_true', decide_eq_false_iff_not, not_lt]
  exact hkeep

/-! ## Concrete test fixtures -/

/-- A human tribe with the fields a freshly created tribe has, used to
build concrete states. -/
def mkTribe (id playerId name loc : String) (res : Resources)
    (dip : List (String × DiploEntry)) : Tribe :=
  { id := id, playerId := playerId, isAI := false, aiType := none, playerName := name,
    tribeName := name, icon := "castle", color := "#F56565", stats := ⟨5, 5, 5, 5⟩,
    location := loc, globalResources := res, garrisons := [(loc, initialGarrison)],
    actions := [], turnSubmitted := false, lastTurnResults := [], exploredHexes := [],
    rationLevel := "Normal", completedTechs := [], assets := [], currentResearch := none,
    journeyResponses := [], diplomacy := dip }

/-- A minimal well-formed state with no tribes, turn 5. -/
def baseState : GameState :=
  { mapData := [⟨0, 0, .Plains⟩], tribes := [], turn := 5,
    startingLocations := ["000.000", "001.000", "000.001", "001.001", "002.000"],
    chiefRequests := [], assetRequests := [], journeys := [], diplomaticProposals := [],
    history := [], mapSeed := 12345, mapSettings := defaultMapSettings }

/-- State used against C4: one tribe holding 10 food and 4 scrap. -/
def c4State : GameState :=
  { baseState with tribes := [mkTribe "tribe-A" "user-A" "Alphas" "000.000" ⟨10, 4, 50⟩ []] }

/-- C4. The spec claims any internal failure during the turn advance
leaves the pre-advance state unmodified.  It fails: when an exception
strikes after the resource loop (for example the proposals `filter`
throwing on a malformed `diplomaticProposals` installed by
`load_backup`), the state the `catch` hands back already has every
tribe's food and scrap accrued through the aliased `globalResources`
objects. -/
theorem c4_claim_false_not_atomic :
    processGlobalTurnInterrupted 2 c4State ≠ c4State ∧
    (processGlobalTurnInterrupted 2 c4State).tribes.map (fun t => t.globalResources.food)
      = [15] ∧
    c4State.tribes.map (fun t => t.globalResources.food) = [10] ∧
    (processGlobalTurnInterrupted 2 c4State).turn = c4State.turn := by
  refine ⟨by decide, by decide, by decide, by decide⟩

/-! ## Persistence flags and shutdown (server.js lines 509, 980) -/

/-- The module-level flags that govern saving, plus an observation counter
for completed physical writes. -/
structure ServerFlags where
  isShuttingDown : Bool
  saveInProgress : Bool
  savesWritten : Nat
  deriving DecidableEq, Repr

/-- `saveData` (server.js line 509): return early while shutting down or
while another save is in flight; otherwise perform one write (counted) and
clear `saveInProgress` again in the `finally`. -/
def saveData (f : ServerFlags) : ServerFlags :=
  if f.isShuttingDown then f
  else if f.saveInProgress then f
  else { f with savesWritten := f.savesWritten + 1 }

/-- `gracefulShutdown` (server.js line 980): ignore repeated signals, set
`isShuttingDown`, then — if no save is in flight — call `saveData` once
as the final save. -/
def gracefulShutdown (f : ServerFlags) : ServerFlags :=
  if f.isShuttingDown then f
  else
    let f1 := { f with isShuttingDown := true }
    if !f1.saveInProgress then saveData f1 else f1

/-- C9. The spec claims shutdown performs exactly one final save whenever
none is in flight.  It fails: `gracefulShutdown` sets `isShuttingDown`
before calling `saveData`, and `saveData`'s first guard then returns
without writing, so a shutdown from the normal running state performs
zero saves. -/
theorem c9_claim_false_final_save_skipped :
    (gracefulShutdown ⟨false, false, 0⟩).savesWritten = 0 ∧
    (gracefulShutdown ⟨false, false, 0⟩).isShuttingDown = true := by
  refine ⟨by decide, by decide⟩

/-! ## User store and client payloads (server.js lines 573-609) -/

/-- User record of the account store. -/
structure User where
  id : String
  username : String
  passwordHash : String
  role : String
  securityQuestion : String
  securityAnswerHash : String
  deriving DecidableEq, Repr

/-- User record as sent to clients: the rest-destructuring
`( passwordHash, securityAnswerHash, ...rest )` keeps exactly these
fields. -/
structure ClientUser where
  id : String
  username : String
  role : String
  securityQuestion : String
  deriving DecidableEq, Repr

/-- The per-user projection every user-emitting path applies
(`emitUsers`, `get_initial_state`, `login`, `register`). -/
def sanitizeUser (u : User) : ClientUser :=
  ⟨u.id, u.username, u.role, u.securityQuestion⟩

/-- Payload of the `users_updated` broadcast (server.js line 575). -/
def emitUsersPayload (users : List User) : List ClientUser :=
  users.map sanitizeUser

/-- Users part of the `initial_state` reply (server.js line 585). -/
def initialStateUsersPayload (users : List User) : List ClientUser :=
  users.map sanitizeUser

/-- Payload of a `login_success` reply (server.js line 598). -/
def loginSuccessPayload (u : User) : ClientUser :=
  sanitizeUser u

/-- Two user records that agree on everything except the two hash
fields. -/
def AgreeExceptHashes (u v : User) : Prop :=
  u.id = v.id ∧ u.username = v.username ∧ u.role = v.role ∧
    u.securityQuestion = v.securityQuestion

/-- C10. User stores differing only in `passwordHash` and
`securityAnswerHash` yield identical client-visible payloads on all three
paths, so those fields never reach a client. -/
theorem c10_no_hash_leak (us vs : List User) (h : List.Forall₂ AgreeExceptHashes us vs) :
    emitUsersPayload us = emitUsersPayload vs ∧
    initialStateUsersPayload us = initialStateUsersPayload vs ∧
    ∀ u v : User, AgreeExceptHashes u v → loginSuccessPayload u = loginSuccessPayload v := by
  have hmap : us.map sanitizeUser = vs.map sanitizeUser := by
    induction h with
    | nil => rfl
    | cons hagree _ ih =>
      obtain ⟨h1, h2, h3, h4⟩ := hagree
      simp only [List.map_cons, ih, List.cons.injEq, and_true]
      simp only [sanitizeUser, h1, h2, h3, h4]
  refine ⟨hmap, hmap, ?_⟩
  rintro u v ⟨h1, h2, h3, h4⟩
  simp only [loginSuccessPayload, sanitizeUser, h1, h2, h3, h4]

theorem c10_no_hash_leak_witness :
    emitUsersPayload [⟨"user-admin", "Admin", "hashed_snoopy_salted_v1", "admin", "q0", "a1"⟩]
      = emitUsersPayload
          [⟨"user-admin", "Admin", "other-password-hash", "admin", "q0", "other-answer-hash"⟩] :=
  (c10_no_hash_leak _ _
    (List.Forall₂.cons ⟨rfl, rfl, rfl, rfl⟩ List.Forall₂.nil)).1

/-! ## Boundary command handlers (server.js lines 685-943) -/

/-- In-place mutation of the object a JS `find` call returns: the first
matching element is replaced by its mutated version, everything else is
untouched; no-op when nothing matches (a falsy `find` result guards the
mutation). -/
def mutateFirst {α : Type} (p : α → Bool) (f : α → α) : List α → List α
  | [] => []
  | x :: xs => if p x then f x :: xs else x :: mutateFirst p f xs

/-- The asset table of the `getAsset` stub (server.js line 339). -/
def getAsset (assetName : String) : Option String :=
  getEntry
    [("Ancient Codex", "Knowledge from the old world"),
     ("Fusion Cell", "Powerful energy source"),
     ("Satellite Uplink", "Communication device")] assetName

/-- The client-supplied fields of `newTribeData` that `create_tribe` keeps
(every other field of the new tribe is overridden by the handler). -/
structure TribeProfile where
  playerId : String
  isAI : Bool
  aiType : Option String
  playerName : String
  tribeName : String
  icon : String
  color : String
  stats : Stats
  deriving DecidableEq, Repr

/-- `create_tribe` handler (server.js line 685).  `newId` stands for the
generated `tribe-` plus `Date.now()` identifier.  The handler finds a
free starting location (or alerts and leaves the state alone), builds the
new tribe, then walks the existing tribes seeding the relation in both
directions: `War` against an AI tribe, `Neutral` against a human one. -/
def createTribe (s : GameState) (profile : TribeProfile) (newId : String) : GameState :=
  let occupied := s.tribes.map fun t => t.location
  match s.startingLocations.find? (fun loc => !occupied.contains loc) with
  | none => s
  | some availableStart =>
      let newTribeBase : Tribe :=
        { id := newId, playerId := profile.playerId, isAI := profile.isAI,
          aiType := profile.aiType, playerName := profile.playerName,
          tribeName := profile.tribeName, icon := profile.icon, color := profile.color,
          stats := profile.stats, location := availableStart,
          globalResources := initialGlobalResources,
          garrisons := [(availableStart, initialGarrison)],
          actions := [], turnSubmitted := false, lastTurnResults := [],
          exploredHexes := getHexesInRangeParsed (parseHexCoords availableStart) 2,
          rationLevel := "Normal", completedTechs := [], assets := [],
          currentResearch := none, journeyResponses := [], diplomacy := [] }
      let newTribe :=
        { newTribeBase with
            diplomacy := s.tribes.foldl
              (fun d t => setEntry d t.id ⟨if t.isAI then .War else .Neutral⟩) [] }
      { s with tribes :=
          (s.tribes.map fun t =>
            { t with diplomacy :=
                setEntry t.diplomacy newId ⟨if t.isAI then .War else .Neutral⟩ }) ++ [newTribe] }

/-- `submit_turn` handler (server.js line 732): record the action list and
journey responses on the found tribe and lock it; unknown ids only log. -/
def submitTurn (s : GameState) (tribeId : String) (plannedActions : List GameAction)
    (journeyResponses : List JourneyResponse) : GameState :=
  { s with
      tribes :=
        mutateFirst (fun t => t.id == tribeId)
          (fun t => { t with actions := plannedActions, turnSubmitted := true,
                             journeyResponses := journeyResponses }) s.tribes }

/-- `update_tribe` handler (server.js line 786): wholesale replacement of
every tribe whose id matches by the client-supplied record. -/
def updateTribe (s : GameState) (updatedTribe : Tribe) : GameState :=
  { s with tribes := s.tribes.map fun t => if t.id == updatedTribe.id then updatedTribe else t }

/-- `remove_player` handler (server.js line 790), tribes part.  (The
`users = users.filter(...)` line only rebinds the shadowing parameter and
has no effect on the store.) -/
def removePlayer (s : GameState) (userId : String) : GameState :=
  { s with tribes := s.tribes.filter fun t => !(t.playerId == userId) }

/-- `start_new_game` handler (server.js line 795). -/
def startNewGame (s : GameState) : GameState :=
  { s with tribes := [], chiefRequests := [], assetRequests := [], journeys := [],
           turn := 1, diplomaticProposals := [], history := [] }

/-- `update_map` handler (server.js line 810). -/
def updateMap (s : GameState) (newMapData : List Hex) (newStartingLocations : List String) :
    GameState :=
  { s with mapData := newMapData, startingLocations := newStartingLocations }

/-- `request_chief` handler (server.js line 815); `newId` stands for the
generated `req-` plus `Date.now()` identifier. -/
def requestChief (s : GameState) (tribeId chiefName newId : String) : GameState :=
  { s with chiefRequests := s.chiefRequests ++ [⟨newId, tribeId, chiefName, "pending"⟩] }

/-- `approve_chief` handler (server.js line 819): mark the request
approved; when the tribe and the chief datum both exist, append the chief
to the garrison at the tribe's current location, creating the garrison
(and its chiefs array) if missing. -/
def approveChief (s : GameState) (reqId : String) : GameState :=
  match s.chiefRequests.find? (fun r => r.id == reqId) with
  | none => s
  | some req =>
      let chiefRequests := mutateFirst (fun r => r.id == reqId)
        (fun r => { r with status := "approved" }) s.chiefRequests
      match s.tribes.find? (fun t => t.id == req.tribeId),
            allChiefs.find? (fun c => c.name == req.chiefName) with
      | some _, some chiefData =>
          { s with
              chiefRequests := chiefRequests
              tribes := mutateFirst (fun t => t.id == req.tribeId)
                (fun t =>
                  let g := (getEntry t.garrisons t.location).getD initialGarrison
                  { t with
                      garrisons :=
                        setEntry t.garrisons t.location
                          { g with chiefs := g.chiefs ++ [chiefData] } }) s.tribes }
      | _, _ => { s with chiefRequests := chiefRequests }

/-- `deny_chief` handler (server.js line 839). -/
def denyChief (s : GameState) (reqId : String) : GameState :=
  { s with
      chiefRequests :=
        mutateFirst (fun r => r.id == reqId)
          (fun r => { r with status := "denied" }) s.chiefRequests }

/-- `request_asset` handler (server.js line 846); `newId` stands for the
generated `asset-req-` plus `Date.now()` identifier. -/
def requestAsset (s : GameState) (tribeId assetName newId : String) : GameState :=
  { s with assetRequests := s.assetRequests ++ [⟨newId, tribeId, assetName, "pending"⟩] }

/-- `approve_asset` handler (server.js line 850). -/
def approveAsset (s : GameState) (reqId : String) : GameState :=
  match s.assetRequests.find? (fun r => r.id == reqId) with
  | none => s
  | some req =>
      let assetRequests := mutateFirst (fun r => r.id == reqId)
        (fun r => { r with status := "approved" }) s.assetRequests
      match s.tribes.find? (fun t => t.id == req.tribeId), getAsset req.assetName with
      | some _, some _ =>
          { s with
              assetRequests := assetRequests
              tribes := mutateFirst (fun t => t.id == req.tribeId)
                (fun t => { t with assets := t.assets ++ [req.assetName] }) s.tribes }
      | _, _ => { s with assetRequests := assetRequests }

/-- `deny_asset` handler (server.js line 866). -/
def denyAsset (s : GameState) (reqId : String) : GameState :=
  { s with
      assetRequests :=
        mutateFirst (fun r => r.id == reqId)
          (fun r => { r with status := "denied" }) s.assetRequests }

/-- `generateAITribe` (server.js line 234).  `newId` and `newPlayerId`
stand for the `Date.now()`-based identifiers; `name` and `color` for the
Math.random draws of an unused roster name and a palette color. -/
def generateAITribe (startLocation newId newPlayerId name color : String) : Tribe :=
  { id := newId, playerId := newPlayerId, isAI := true, aiType := some "Wanderer",
    playerName := "AI", tribeName := name, icon := "skull", color := color,
    stats := ⟨5, 5, 5, 5⟩, location := startLocation,
    globalResources := initialGlobalResources,
    garrisons := [(startLocation, initialGarrison)],
    actions := [], turnSubmitted := false, lastTurnResults := [],
    exploredHexes := getHexesInRangeParsed (parseHexCoords startLocation) 2,
    rationLevel := "Normal", completedTechs := [], assets := [],
    currentResearch := none, journeyResponses := [], diplomacy := [] }

/-- `add_ai_tribe` handler (server.js line 873): place the AI tribe on a
free starting location and seed mutual `War` with every existing tribe. -/
def addAITribe (s : GameState) (newId newPlayerId name color : String) : GameState :=
  let occupied := s.tribes.map fun t => t.location
  match s.startingLocations.find? (fun loc => !occupied.contains loc) with
  | none => s
  | some start =>
      let ai := generateAITribe start newId newPlayerId name color
      let ai2 :=
        { ai with
            diplomacy := s.tribes.foldl (fun d t => setEntry d t.id ⟨.War⟩) ai.diplomacy }
      { s with tribes :=
          (s.tribes.map fun t =>
            { t with diplomacy := setEntry t.diplomacy newId ⟨.War⟩ }) ++ [ai2] }

/-- `propose_alliance` handler (server.js line 888); `newId` stands for
the generated `proposal-` plus `Date.now()` identifier. -/
def proposeAlliance (s : GameState) (fromTribeId toTribeId newId : String) : GameState :=
  match s.tribes.find? (fun t => t.id == fromTribeId) with
  | none => s
  | some fromTribe =>
      { s with diplomaticProposals := s.diplomaticProposals ++
          [⟨newId, fromTribeId, toTribeId, .Alliance, s.turn + 3, fromTribe.tribeName, none⟩] }

/-- `sue_for_peace` handler (server.js line 902). -/
def sueForPeace (s : GameState) (fromTribeId toTribeId : String) (reparations : String)
    (newId : String) : GameState :=
  match s.tribes.find? (fun t => t.id == fromTribeId) with
  | none => s
  | some fromTribe =>
      { s with diplomaticProposals := s.diplomaticProposals ++
          [⟨newId, fromTribeId, toTribeId, .Neutral, s.turn + 3, fromTribe.tribeName,
            some reparations⟩] }

/-- `declare_war` handler (server.js line 917): when both tribes exist,
set the relation to `War` on both sides, and create no proposal. -/
def declareWar (s : GameState) (fromTribeId toTribeId : String) : GameState :=
  if (s.tribes.any fun t => t.id == fromTribeId) &&
     (s.tribes.any fun t => t.id == toTribeId) then
    { s with
        tribes :=
          mutateFirst (fun t => t.id == toTribeId)
            (fun t => { t with diplomacy := setEntry t.diplomacy fromTribeId ⟨.War⟩ })
            (mutateFirst (fun t => t.id == fromTribeId)
              (fun t => { t with diplomacy := setEntry t.diplomacy toTribeId ⟨.War⟩ })
              s.tribes) }
  else s

/-- `accept_proposal` handler (server.js line 926): apply the proposed
status to both sides and drop the proposal; missing proposal or tribes
make it a no-op. -/
def acceptProposal (s : GameState) (proposalId : String) : GameState :=
  match s.diplomaticProposals.find? (fun p => p.id == proposalId) with
  | none => s
  | some proposal =>
      if (s.tribes.any fun t => t.id == proposal.fromTribeId) &&
         (s.tribes.any fun t => t.id == proposal.toTribeId) then
        { s with
            tribes :=
              mutateFirst (fun t => t.id == proposal.toTribeId)
                (fun t =>
                  { t with
                      diplomacy :=
                        setEntry t.diplomacy proposal.fromTribeId
                          ⟨proposal.statusChangeTo⟩ })
                (mutateFirst (fun t => t.id == proposal.fromTribeId)
                  (fun t =>
                    { t with
                        diplomacy :=
                          setEntry t.diplomacy proposal.toTribeId
                            ⟨proposal.statusChangeTo⟩ })
                  s.tribes)
            diplomaticProposals := s.diplomaticProposals.filter fun p => !(p.id == proposalId) }
      else s

/-- `reject_proposal` handler (server.js line 939). -/
def rejectProposal (s : GameState) (proposalId : String) : GameState :=
  { s with diplomaticProposals := s.diplomaticProposals.filter fun p => !(p.id == proposalId) }

/-- The boundary commands of the game-action interface.  Generated
identifiers and random draws appear as constructor arguments. -/
inductive Command
  | createTribe (profile : TribeProfile) (newId : String)
  | submitTurn (tribeId : String) (actions : List GameAction) (jr : List JourneyResponse)
  | processTurn
  | startNewGame
  | updateMap (m : List Hex) (sl : List String)
  | requestChief (tribeId chiefName newId : String)
  | approveChief (reqId : String)
  | denyChief (reqId : String)
  | requestAsset (tribeId assetName newId : String)
  | approveAsset (reqId : String)
  | denyAsset (reqId : String)
  | addAITribe (newId newPlayerId name color : String)
  | proposeAlliance (fromId toId newId : String)
  | sueForPeace (fromId toId reparations newId : String)
  | declareWar (fromId toId : String)
  | acceptProposal (pid : String)
  | rejectProposal (pid : String)
  | removePlayer (userId : String)
  | updateTribe (t : Tribe)
  | loadBackup (backup : GameState)
  deriving Repr

/-- Dispatch of a boundary command to its handler. -/
def applyCommand (s : GameState) : Command → GameState
  | .createTribe profile newId => createTribe s profile newId
  | .submitTurn tribeId actions jr => submitTurn s tribeId actions jr
  | .processTurn => processTurnCommand s
  | .startNewGame => startNewGame s
  | .updateMap m sl => updateMap s m sl
  | .requestChief tribeId chiefName newId => requestChief s tribeId chiefName newId
  | .approveChief reqId => approveChief s reqId
  | .denyChief reqId => denyChief s reqId
  | .requestAsset tribeId assetName newId => requestAsset s tribeId assetName newId
  | .approveAsset reqId => approveAsset s reqId
  | .denyAsset reqId => denyAsset s reqId
  | .addAITribe newId newPlayerId name color => addAITribe s newId newPlayerId name color
  | .proposeAlliance fromId toId newId => proposeAlliance s fromId toId newId
  | .sueForPeace fromId toId reparations newId => sueForPeace s fromId toId reparations newId
  | .declareWar fromId toId => declareWar s fromId toId
  | .acceptProposal pid => acceptProposal s pid
  | .rejectProposal pid => rejectProposal s pid
  | .removePlayer userId => removePlayer s userId
  | .updateTribe t => updateTribe s t
  | .loadBackup backup => backup

/-! ## The diplomacy symmetry invariant -/

/-- Diplomatic symmetry: every pair of distinct tribes present in the
state has a relation entry in both directions, with equal statuses. -/
def DiploSymm (s : GameState) : Prop :=
  ∀ a ∈ s.tribes, ∀ b ∈ s.tribes, a.id ≠ b.id →
    ∃ st : DipStatus, getEntry a.diplomacy b.id = some ⟨st⟩ ∧
      getEntry b.diplomacy a.id = some ⟨st⟩

/-- Executable check of `DiploSymm`, for concrete states. -/
def diploSymmB (s : GameState) : Bool :=
  s.tribes.all fun a => s.tribes.all fun b =>
    a.id == b.id ||
      (match getEntry a.diplomacy b.id, getEntry b.diplomacy a.id with
       | some e1, some e2 => e1 == e2
       | _, _ => false)

theorem diploSymm_iff (s : GameState) : DiploSymm s ↔ diploSymmB s = true := by
  unfold DiploSymm diploSymmB
  simp only [List.all_eq_true]
  constructor
  · intro h a ha b hb
    by_cases hid : a.id = b.id
    · simp [hid]
    · obtain ⟨st, h1, h2⟩ := h a ha b hb hid
      simp [h1, h2]
  · intro h a ha b hb hid
    have hb2 := h a ha b hb
    rw [Bool.or_eq_true] at hb2
    rcases hb2 with hb2 | hb2
    · exact absurd (by simpa using hb2) hid
    · cases h1 : getEntry a.diplomacy b.id with
      | none => rw [h1] at hb2; simp at hb2
      | some e1 =>
        cases h2 : getEntry b.diplomacy a.id with
        | none => rw [h1, h2] at hb2; simp at hb2
        | some e2 =>
          rw [h1, h2] at hb2
          simp only [beq_iff_eq] at hb2
          obtain ⟨st⟩ := e1
          subst hb2
          exact ⟨st, rfl, rfl⟩

/-- Preservation helper: a state whose every tribe has the id and
diplomacy of some tribe of a symmetric state is itself symmetric. -/
theorem diploSymm_of_embed {s s2 : GameState}
    (h : ∀ t2 ∈ s2.tribes, ∃ t ∈ s.tribes, t2.id = t.id ∧ t2.diplomacy = t.diplomacy)
    (hs : DiploSymm s) : DiploSymm s2 := by
  intro a ha b hb hab
  obtain ⟨a0, ha0, hia, hda⟩ := h a ha
  obtain ⟨b0, hb0, hib, hdb⟩ := h b hb
  rw [hia, hib] at hab
  rw [hia, hib, hda, hdb]
  exact hs a0 ha0 b0 hb0 hab

theorem diploSymm_tribes_eq {s1 s2 : GameState} (h : s1.tribes = s2.tribes)
    (hs : DiploSymm s1) : DiploSymm s2 := by
  intro a ha b hb hab
  rw [← h] at ha hb
  exact hs a ha b hb hab

theorem mem_mutateFirst {α : Type} (p : α → Bool) (f : α → α) (l : List α) (x : α)
    (hx : x ∈ mutateFirst p f l) : x ∈ l ∨ ∃ y ∈ l, x = f y := by
  induction l with
  | nil => simp [mutateFirst] at hx
  | cons a as ih =>
    rw [mutateFirst] at hx
    by_cases hp : p a
    · rw [if_pos hp] at hx
      rcases List.mem_cons.mp hx with h | h
      · exact Or.inr ⟨a, List.mem_cons_self a as, h⟩
      · exact Or.inl (List.mem_cons_of_mem a h)
    · rw [if_neg hp] at hx
      rcases List.mem_cons.mp hx with h | h
      · exact Or.inl (h ▸ List.mem_cons_self a as)
      · rcases ih h with h2 | ⟨y, hy, hxy⟩
        · exact Or.inl (List.mem_cons_of_mem a h2)
        · exact Or.inr ⟨y, List.mem_cons_of_mem a hy, hxy⟩

/-- When tribe ids are pairwise distinct, mutating the tribe a `find` by
id returns is the same as mapping a guarded update over the list. -/
theorem mutateFirst_id_eq_map (l : List Tribe) (hn : (l.map Tribe.id).Nodup)
    (tid : String) (f : Tribe → Tribe) :
    mutateFirst (fun t => t.id == tid) f l = l.map fun t => if t.id = tid then f t else t := by
  induction l with
  | nil => rfl
  | cons a as ih =>
    rw [List.map_cons, List.nodup_cons] at hn
    rw [mutateFirst, List.map_cons]
    by_cases hp : a.id = tid
    · rw [if_pos (by simp [hp]), if_pos hp]
      have hmap : (as.map fun t => if t.id = tid then f t else t) = as := by
        have hpt : ∀ x ∈ as, (if x.id = tid then f x else x) = x := by
          intro x hx
          rw [if_neg]
          intro hxe
          exact hn.1 (hp ▸ hxe ▸ List.mem_map_of_mem Tribe.id hx)
        calc (as.map fun t => if t.id = tid then f t else t) = as.map id :=
              List.map_congr_left hpt
          _ = as := List.map_id as
      rw [hmap]
    · rw [if_neg (by simp [hp]), if_neg hp, ih hn.2]

theorem getEntry_foldl_set_not_mem (l : List Tribe) (d : List (String × DiploEntry))
    (g : Tribe → DiploEntry) (k : String) (h : k ∉ l.map Tribe.id) :
    getEntry (l.foldl (fun d t => setEntry d t.id (g t)) d) k = getEntry d k := by
  induction l generalizing d with
  | nil => rfl
  | cons a as ih =>
    rw [List.map_cons, List.mem_cons] at h
    push_neg at h
    rw [List.foldl_cons, ih _ h.2]
    exact getEntry_setEntry_ne d a.id k (g a) h.1

theorem getEntry_foldl_set_mem (l : List Tribe) (d : List (String × DiploEntry))
    (g : Tribe → DiploEntry) (a : Tribe) (hn : (l.map Tribe.id).Nodup) (ha : a ∈ l) :
    getEntry (l.foldl (fun d t => setEntry d t.id (g t)) d) a.id = some (g a) := by
  induction l generalizing d with
  | nil => cases ha
  | cons t ts ih =>
    rw [List.map_cons, List.nodup_cons] at hn
    rw [List.foldl_cons]
    rcases List.mem_cons.mp ha with rfl | hmem
    · rw [getEntry_foldl_set_not_mem ts _ g a.id hn.1]
      exact getEntry_setEntry_self d a.id (g a)
    · exact ih _ hn.2 hmem

/-- `declare_war` and `accept_proposal` both update the ordered pair
`(x, y)` with the same entry on both sides; under distinct tribe ids this
preserves symmetry. -/
theorem diploSymm_set_pair (s : GameState) (x y : String) (e : DiploEntry)
    (hn : (s.tribes.map Tribe.id).Nodup) (hs : DiploSymm s) :
    DiploSymm
      { s with
          tribes :=
            mutateFirst (fun t => t.id == y)
              (fun t => { t with diplomacy := setEntry t.diplomacy x e })
              (mutateFirst (fun t => t.id == x)
                (fun t => { t with diplomacy := setEntry t.diplomacy y e })
                s.tribes) } := by
  have hn1 :
      ((s.tribes.map fun t =>
          if t.id = x then { t with diplomacy := setEntry t.diplomacy y e } else t).map
        Tribe.id).Nodup := by
    rw [List.map_map]
    have hpt : ∀ t ∈ s.tribes,
        (Tribe.id ∘ fun t =>
          if t.id = x then { t with diplomacy := setEntry t.diplomacy y e } else t) t
          = Tribe.id t := by
      intro t _
      by_cases h : t.id = x
      · rw [Function.comp_apply, if_pos h]
      · rw [Function.comp_apply, if_neg h]
    rw [List.map_congr_left hpt]
    exact hn
  rw [mutateFirst_id_eq_map s.tribes hn x, mutateFirst_id_eq_map _ hn1 y, List.map_map]
  set g1 : Tribe → Tribe :=
    fun t => if t.id = x then { t with diplomacy := setEntry t.diplomacy y e } else t with hg1
  set g2 : Tribe → Tribe :=
    fun t => if t.id = y then { t with diplomacy := setEntry t.diplomacy x e } else t with hg2
  have gid : ∀ t : Tribe, (g2 (g1 t)).id = t.id := by
    intro t
    rw [hg1, hg2]
    dsimp only
    by_cases h1 : t.id = x
    · rw [if_pos h1]
      by_cases h2 : t.id = y
      · rw [if_pos h2]
      · rw [if_neg h2]
    · rw [if_neg h1]
      by_cases h2 : t.id = y
      · rw [if_pos h2]
      · rw [if_neg h2]
  have gunch : ∀ t : Tribe, t.id ≠ x → t.id ≠ y → g2 (g1 t) = t := by
    intro t h1 h2
    rw [hg1, hg2]
    dsimp only
    rw [if_neg h1, if_neg h2]
  have gdip : ∀ t : Tribe, ∀ k : String, k ≠ x → k ≠ y →
      getEntry (g2 (g1 t)).diplomacy k = getEntry t.diplomacy k := by
    intro t k hkx hky
    rw [hg1, hg2]
    dsimp only
    by_cases h1 : t.id = x
    · rw [if_pos h1]
      by_cases h2 : t.id = y
      · rw [if_pos h2]
        dsimp only
        rw [getEntry_setEntry_ne _ _ _ _ hkx, getEntry_setEntry_ne _ _ _ _ hky]
      · rw [if_neg h2]
        dsimp only
        rw [getEntry_setEntry_ne _ _ _ _ hky]
    · rw [if_neg h1]
      by_cases h2 : t.id = y
      · rw [if_pos h2]
        dsimp only
        rw [getEntry_setEntry_ne _ _ _ _ hkx]
      · rw [if_neg h2]
  have gx : ∀ t : Tribe, t.id = x → getEntry (g2 (g1 t)).diplomacy y = some e := by
    intro t h1
    rw [hg1, hg2]
    dsimp only
    rw [if_pos h1]
    by_cases h2 : t.id = y
    · rw [if_pos h2]
      dsimp only
      rw [h1.symm.trans h2, getEntry_setEntry_self]
    · rw [if_neg h2]
      dsimp only
      rw [getEntry_setEntry_self]
  have gy : ∀ t : Tribe, t.id = y → getEntry (g2 (g1 t)).diplomacy x = some e := by
    intro t h2
    rw [hg1, hg2]
    dsimp only
    by_cases h1 : t.id = x
    · rw [if_pos h1, if_pos h2]
      dsimp only
      rw [getEntry_setEntry_self]
    · rw [if_neg h1, if_pos h2]
      dsimp only
      rw [getEntry_setEntry_self]
  intro a2 ha2 b2 hb2 hne
  simp only [List.mem_map, Function.comp_apply] at ha2 hb2
  obtain ⟨a, ha, rfl⟩ := ha2
  obtain ⟨b, hb, rfl⟩ := hb2
  rw [gid a, gid b] at hne
  rw [gid a, gid b]
  by_cases hax : a.id = x
  · by_cases hby : b.id = y
    · obtain ⟨st⟩ := e
      refine ⟨st, ?_, ?_⟩
      · rw [hby]
        exact gx a hax
      · rw [hax]
        exact gy b hby
    · have hbx : b.id ≠ x := fun h => hne (hax.trans h.symm)
      obtain ⟨st, hsa, hsb⟩ := hs a ha b hb hne
      refine ⟨st, ?_, ?_⟩
      · rw [gdip a b.id hbx hby]
        exact hsa
      · rw [gunch b hbx hby]
        exact hsb
  · by_cases hay : a.id = y
    · by_cases hbx : b.id = x
      · obtain ⟨st⟩ := e
        refine ⟨st, ?_, ?_⟩
        · rw [hbx]
          exact gy a hay
        · rw [hay]
          exact gx b hbx
      · have hby : b.id ≠ y := fun h => hne (hay.trans h.symm)
        obtain ⟨st, hsa, hsb⟩ := hs a ha b hb hne
        refine ⟨st, ?_, ?_⟩
        · rw [gdip a b.id hbx hby]
          exact hsa
        · rw [gunch b hbx hby]
          exact hsb
    · obtain ⟨st, hsa, hsb⟩ := hs a ha b hb hne
      refine ⟨st, ?_, ?_⟩
      · rw [gunch a hax hay]
        exact hsa
      · rw [gdip b a.id hax hay]
        exact hsb

/-- `create_tribe` preserves symmetry: the new tribe and every existing
tribe get the same initial status in both directions, and entries between
existing tribes are untouched (the generated id must be fresh). -/
theorem diploSymm_createTribe (s : GameState) (profile : TribeProfile) (newId : String)
    (hn : (s.tribes.map Tribe.id).Nodup) (hfresh : ∀ t ∈ s.tribes, t.id ≠ newId)
    (hs : DiploSymm s) : DiploSymm (createTribe s profile newId) := by
  unfold createTribe
  dsimp only
  split
  · exact hs
  · intro a2 ha2 b2 hb2 hne
    dsimp only at ha2 hb2 hne ⊢
    simp only [List.mem_append, List.mem_map, List.mem_singleton] at ha2 hb2
    rcases ha2 with ⟨a, ha, rfl⟩ | rfl
    · rcases hb2 with ⟨b, hb, rfl⟩ | rfl
      · dsimp only at hne ⊢
        have hfb := hfresh b hb
        have hfa := hfresh a ha
        obtain ⟨st, hsa, hsb⟩ := hs a ha b hb hne
        refine ⟨st, ?_, ?_⟩
        · rw [getEntry_setEntry_ne _ _ _ _ hfb]
          exact hsa
        · rw [getEntry_setEntry_ne _ _ _ _ hfa]
          exact hsb
      · dsimp only at hne ⊢
        refine ⟨if a.isAI then .War else .Neutral, ?_, ?_⟩
        · rw [getEntry_setEntry_self]
        · exact getEntry_foldl_set_mem s.tribes [] _ a hn ha
    · rcases hb2 with ⟨b, hb, rfl⟩ | rfl
      · dsimp only at hne ⊢
        refine ⟨if b.isAI then .War else .Neutral, ?_, ?_⟩
        · exact getEntry_foldl_set_mem s.tribes [] _ b hn hb
        · rw [getEntry_setEntry_self]
      · exact absurd rfl hne

/-- `add_ai_tribe` preserves symmetry: mutual `War` is seeded in both
directions with every existing tribe. -/
theorem diploSymm_addAITribe (s : GameState) (newId newPlayerId name color : String)
    (hn : (s.tribes.map Tribe.id).Nodup) (hfresh : ∀ t ∈ s.tribes, t.id ≠ newId)
    (hs : DiploSymm s) : DiploSymm (addAITribe s newId newPlayerId name color) := by
  unfold addAITribe
  dsimp only
  split
  next => exact hs
  next start hfind =>
    have hai : (generateAITribe start newId newPlayerId name color).id = newId := rfl
    intro a2 ha2 b2 hb2 hne
    dsimp only at ha2 hb2 hne ⊢
    simp only [List.mem_append, List.mem_map, List.mem_singleton] at ha2 hb2
    rcases ha2 with ⟨a, ha, rfl⟩ | rfl
    · rcases hb2 with ⟨b, hb, rfl⟩ | rfl
      · dsimp only at hne ⊢
        have hfb := hfresh b hb
        have hfa := hfresh a ha
        obtain ⟨st, hsa, hsb⟩ := hs a ha b hb hne
        refine ⟨st, ?_, ?_⟩
        · rw [getEntry_setEntry_ne _ _ _ _ hfb]
          exact hsa
        · rw [getEntry_setEntry_ne _ _ _ _ hfa]
          exact hsb
      · dsimp only at hne ⊢
        rw [hai]
        refine ⟨.War, ?_, ?_⟩
        · rw [getEntry_setEntry_self]
        · exact getEntry_foldl_set_mem s.tribes _ _ a hn ha
    · rcases hb2 with ⟨b, hb, rfl⟩ | rfl
      · dsimp only at hne ⊢
        rw [hai]
        refine ⟨.War, ?_, ?_⟩
        · exact getEntry_foldl_set_mem s.tribes _ _ b hn hb
        · rw [getEntry_setEntry_self]
      · exact absurd rfl hne

/-- Side conditions for the amended C2: generated tribe ids are fresh,
and the two commands that install client state verbatim (`update_tribe`,
`load_backup`) are excluded. -/
def CommandOk (c : Command) (s : GameState) : Prop :=
  match c with
  | .createTribe _ newId => ∀ t ∈ s.tribes, t.id ≠ newId
  | .addAITribe newId _ _ _ => ∀ t ∈ s.tribes, t.id ≠ newId
  | .updateTribe _ => False
  | .loadBackup _ => False
  | _ => True

/-- C2 (amended). Starting from a symmetric state with pairwise-distinct
tribe ids, every boundary command except `update_tribe` and `load_backup`
(which replace tribe records wholesale with client-supplied data)
preserves diplomatic symmetry. -/
theorem c2_amended_symmetry_preserved (s : GameState) (c : Command)
    (hn : (s.tribes.map Tribe.id).Nodup) (hc : CommandOk c s) (hs : DiploSymm s) :
    DiploSymm (applyCommand s c) := by
  cases c with
  | createTribe profile newId => exact diploSymm_createTribe s profile newId hn hc hs
  | submitTurn tribeId actions jr =>
      refine diploSymm_of_embed ?_ hs
      intro t2 ht2
      rcases mem_mutateFirst _ _ _ _ ht2 with h | ⟨y, hy, rfl⟩
      · exact ⟨t2, h, rfl, rfl⟩
      · exact ⟨y, hy, rfl, rfl⟩
  | processTurn =>
      refine diploSymm_of_embed ?_ hs
      intro t2 ht2
      simp only [applyCommand, processTurnCommand, processGlobalTurn, List.mem_map] at ht2
      obtain ⟨t1, ⟨t0, ⟨t, ht, rfl⟩, rfl⟩, rfl⟩ := ht2
      refine ⟨t, ht, ?_, ?_⟩
      · unfold accrueResources advanceTribe aiBackfill
        split <;> rfl
      · unfold accrueResources advanceTribe aiBackfill
        split <;> rfl
  | startNewGame =>
      intro a ha
      simp [applyCommand, startNewGame] at ha
  | updateMap m sl => exact diploSymm_tribes_eq rfl hs
  | requestChief tribeId chiefName newId => exact diploSymm_tribes_eq rfl hs
  | approveChief reqId =>
      show DiploSymm (approveChief s reqId)
      unfold approveChief
      split
      next => exact hs
      next req hreq =>
        split
        next tribe0 chiefData htf hcf =>
          refine diploSymm_of_embed ?_ hs
          intro t2 ht2
          dsimp only at ht2
          rcases mem_mutateFirst _ _ _ _ ht2 with h | ⟨y, hy, rfl⟩
          · exact ⟨t2, h, rfl, rfl⟩
          · exact ⟨y, hy, rfl, rfl⟩
        next _ _ => exact diploSymm_tribes_eq rfl hs
  | denyChief reqId => exact diploSymm_tribes_eq rfl hs
  | requestAsset tribeId assetName newId => exact diploSymm_tribes_eq rfl hs
  | approveAsset reqId =>
      show DiploSymm (approveAsset s reqId)
      unfold approveAsset
      split
      next => exact hs
      next req hreq =>
        split
        next tribe0 asset0 htf hcf =>
          refine diploSymm_of_embed ?_ hs
          intro t2 ht2
          dsimp only at ht2
          rcases mem_mutateFirst _ _ _ _ ht2 with h | ⟨y, hy, rfl⟩
          · exact ⟨t2, h, rfl, rfl⟩
          · exact ⟨y, hy, rfl, rfl⟩
        next _ _ => exact diploSymm_tribes_eq rfl hs
  | denyAsset reqId => exact diploSymm_tribes_eq rfl hs
  | addAITribe newId newPlayerId name color =>
      exact diploSymm_addAITribe s newId newPlayerId name color hn hc hs
  | proposeAlliance fromId toId newId =>
      show DiploSymm (proposeAlliance s fromId toId newId)
      unfold proposeAlliance
      split
      next => exact hs
      next fromTribe hfind => exact diploSymm_tribes_eq rfl hs
  | sueForPeace fromId toId reparations newId =>
      show DiploSymm (sueForPeace s fromId toId reparations newId)
      unfold sueForPeace
      split
      next => exact hs
      next fromTribe hfind => exact diploSymm_tribes_eq rfl hs
  | declareWar fromId toId =>
      show DiploSymm (declareWar s fromId toId)
      unfold declareWar
      split
      next _ => exact diploSymm_set_pair s fromId toId ⟨.War⟩ hn hs
      next _ => exact hs
  | acceptProposal pid =>
      show DiploSymm (acceptProposal s pid)
      unfold acceptProposal
      split
      next => exact hs
      next proposal hfind =>
        split
        next _ =>
          exact diploSymm_tribes_eq rfl
            (diploSymm_set_pair s proposal.fromTribeId proposal.toTribeId
              ⟨proposal.statusChangeTo⟩ hn hs)
        next _ => exact hs
  | rejectProposal pid => exact diploSymm_tribes_eq rfl hs
  | removePlayer userId =>
      refine diploSymm_of_embed ?_ hs
      intro t2 ht2
      exact ⟨t2, (List.mem_filter.mp ht2).1, rfl, rfl⟩
  | updateTribe t => exact hc.elim
  | loadBackup backup => exact hc.elim

/-- Two-tribe symmetric fixture for the C2 counterexample. -/
def tribeA : Tribe :=
  mkTribe "tribe-A" "user-A" "Alphas" "000.000" initialGlobalResources
    [("tribe-B", ⟨.Neutral⟩)]

def tribeB : Tribe :=
  mkTribe "tribe-B" "user-B" "Betas" "001.000" initialGlobalResources
    [("tribe-A", ⟨.Neutral⟩)]

def c2State : GameState := { baseState with tribes := [tribeA, tribeB] }

/-- Client payload for `update_tribe` whose diplomacy claims `War` on B
while B still records `Neutral` towards A. -/
def tribeABad : Tribe := { tribeA with diplomacy := [("tribe-B", ⟨.War⟩)] }

/-- C2 (counterexample). The claim promises symmetry after every boundary
command, but `update_tribe` installs a client-supplied tribe record
verbatim: applied to a symmetric two-tribe state it leaves A recording
`War` while B still records `Neutral`. -/
theorem c2_claim_false_update_tribe :
    DiploSymm c2State ∧ ¬ DiploSymm (applyCommand c2State (.updateTribe tribeABad)) := by
  constructor
  · exact (diploSymm_iff c2State).mpr (by decide)
  · intro h
    exact absurd ((diploSymm_iff _).mp h) (by decide)

theorem c2_amended_symmetry_preserved_witness :
    DiploSymm (applyCommand c2State (.declareWar "tribe-A" "tribe-B")) :=
  c2_amended_symmetry_preserved c2State (.declareWar "tribe-A" "tribe-B") (by decide)
    True.intro ((diploSymm_iff c2State).mpr (by decide))

/-! ## Map generation (server.js line 137) -/

/-- State threaded through the generation loops: index of the next
`Math.random` draw, hexes built so far, starting locations so far. -/
structure GenState where
  k : Nat
  hexes : List Hex
  starts : List String
  deriving DecidableEq, Repr

/-- The in-bounds coordinates scanned by `generateMapData`'s nested
loops: `q` and `r` each from `-radius` to `radius`, keeping
`|q| + |r| <= radius * 1.5`; the bound is stated as the exactly
equivalent integer inequality `2*(|q|+|r|) <= 3*radius`. -/
def genCoords (radius : Nat) : List (Int × Int) :=
  (List.range (2 * radius + 1)).flatMap fun (i : Nat) =>
    (List.range (2 * radius + 1)).filterMap fun (j : Nat) =>
      let q : Int := -(radius : Int) + (i : Int)
      let r : Int := -(radius : Int) + (j : Int)
      if 2 * (q.natAbs + r.natAbs) ≤ 3 * radius then some (q, r)
      else none

/-- Body of the nested loops (server.js lines 149-163): draw one terrain
kind as `terrainTypes[Math.floor(Math.random() * 10)]`; when
`|q| < radius/3` and `|r| < radius/3` hold, draw again and push a
starting location on `> 0.8` (the draw is only consumed when both
absolute-value guards hold, because JS `&&` short-circuits).
`rnd k` models the value of the `k`-th `Math.random()` call in exact
thousandths (the drawn value is `rnd k / 1000`, with `rnd k < 1000`):
under that representation every comparison of the body is exact integer
arithmetic — `Math.floor(v*10)` is `rnd k / 100`, `v > 0.8` is
`rnd k > 800`, `|q| < radius/3` is `3*|q| < radius`. -/
def genStep (radius : Nat) (rnd : Nat → Nat) (st : GenState) (c : Int × Int) : GenState :=
  let terrain := terrainTypesList.getD (rnd st.k / 100) .Plains
  let hexes := st.hexes ++ [⟨c.1, c.2, terrain⟩]
  if 3 * c.1.natAbs < radius ∧ 3 * c.2.natAbs < radius then
    if rnd (st.k + 1) > 800 then
      ⟨st.k + 2, hexes, st.starts ++ [encodeHexCoords c.1 c.2]⟩
    else ⟨st.k + 2, hexes, st.starts⟩
  else ⟨st.k + 1, hexes, st.starts⟩

/-- The `while (startingLocations.length < 5)` top-up loop (server.js
line 168): each iteration draws `Math.floor(Math.random()*(radius/2))`
and a sign draw for `q`, the same for `r`, and appends the encoded
location unless already present.  With draws in thousandths,
`Math.floor(v*(radius/2))` is `rnd k * radius / 2000` and `v > 0.5` is
`rnd k > 500`, both exact.  The JS loop is unbounded; `fuel` bounds the
number of modelled iterations, the body is otherwise exact. -/
def topUpStarts (radius : Nat) (rnd : Nat → Nat) :
    Nat → Nat → List String → List String
  | 0, _, starts => starts
  | fuel + 1, k, starts =>
      if starts.length < 5 then
        topUpStarts radius rnd fuel (k + 4)
          (let q : Int := (rnd k * radius / 2000 : Nat) *
            (if rnd (k + 1) > 500 then 1 else -1)
           let r : Int := (rnd (k + 2) * radius / 2000 : Nat) *
            (if rnd (k + 3) > 500 then 1 else -1)
           let loc := encodeHexCoords q r
           if starts.contains loc then starts else starts ++ [loc])
      else starts

/-- Result record of `generateMapData`. -/
structure MapGenResult where
  map : List Hex
  startingLocations : List String
  deriving DecidableEq, Repr

/-- `generateMapData` (server.js line 137).  `seed` and `settings` are
the declared parameters, but the body never reads either: every draw
goes through the global unseeded `Math.random`, modelled as the ambient
stream `rnd`. -/
def generateMapData (radius : Nat) (seed : Int) (settings : MapSettings)
    (rnd : Nat → Nat) (fuel : Nat) : MapGenResult :=
  let st := (genCoords radius).foldl (genStep radius rnd) ⟨0, [], []⟩
  ⟨st.hexes, topUpStarts radius rnd fuel st.k st.starts⟩

/-- C8. The spec demands reproducibility from `(seed, settings)`, but
`generateMapData` ignores its `seed` argument entirely (second conjunct)
and its output varies with the global `Math.random` stream even for a
fixed seed and settings (first conjunct): two invocations with the same
seed generally disagree. -/
theorem c8_claim_false_seed_ignored :
    (generateMapData 1 12345 defaultMapSettings (fun _ => 0) 5).map ≠
      (generateMapData 1 12345 defaultMapSettings (fun _ => 500) 5).map ∧
    ∀ (radius : Nat) (seed1 seed2 : Int) (settings : MapSettings)
      (rnd : Nat → Nat) (fuel : Nat),
      generateMapData radius seed1 settings rnd fuel
        = generateMapData radius seed2 settings rnd fuel := by
  exact ⟨by decide, fun _ _ _ _ _ _ => rfl⟩

end RadixTribes
